import Mathlib

/-!
Shallow embedding of the reading-tracker state engine from
`src/reading-tracker/app/page.tsx`.

Conventions of the embedding:
* Calendar dates (`YYYY-MM-DD` strings in the source) are modelled as integer
  day indices (`Int`); string equality of dates corresponds to integer
  equality, and `new Date(d).getTime()` order corresponds to integer order
  (the environment timezone is taken to be UTC, so the local-midnight
  `weekStart` coincides with the UTC midnight of `today - 6`).
* `safeId()` results are passed in explicitly as the `newId` argument of the
  operations that create records.
* `Number.parseInt` results are modelled as `Option Int`, with `none`
  standing for `NaN`.
* React's `setState` is modelled by explicit state passing: each handler
  returns the next `TrackerState` together with the error message it would
  surface (`none` on success), mirroring the early-return structure of the
  source.
-/

namespace ReadingTracker

inductive BookStatus where
  | notStarted
  | inProgress
  | completed
deriving DecidableEq, Repr

structure Preferences where
  weeklyMinutesGoal : Int
  dailyPagesGoal : Int
  showCompleted : Bool
deriving DecidableEq, Repr

structure Book where
  id : String
  title : String
  author : String
  totalPages : Int
  currentPage : Int
  status : BookStatus
  startedAt : Int
  targetDate : Option Int := none
  notes : Option String := none
deriving DecidableEq, Repr

structure ReadingSession where
  id : String
  bookId : String
  date : Int
  pagesRead : Int
  minutes : Int
  note : Option String := none
deriving DecidableEq, Repr

structure TrackerState where
  books : List Book
  sessions : List ReadingSession
  preferences : Preferences
deriving DecidableEq, Repr

/-- `DEFAULT_STATE.preferences` from the source. -/
def DEFAULT_PREFERENCES : Preferences :=
  { weeklyMinutesGoal := 420, dailyPagesGoal := 30, showCompleted := true }

/-- `DEFAULT_STATE` from the source. -/
def DEFAULT_STATE : TrackerState :=
  { books := [], sessions := [], preferences := DEFAULT_PREFERENCES }

/-- `String.prototype.trim`: drop leading and trailing whitespace.  Written
over the character list so that it is kernel-computable (Lean's
`String.trim` is not). -/
def trimString (s : String) : String :=
  ⟨((s.data.dropWhile Char.isWhitespace).reverse.dropWhile
      Char.isWhitespace).reverse⟩

/-- `clamp(value, min, max) = Math.min(Math.max(value, min), max)`. -/
def clamp (value lo hi : Int) : Int :=
  min (max value lo) hi

/-- `sum(values) = values.reduce((acc, current) => acc + current, 0)`. -/
def sum (values : List Int) : Int :=
  values.foldl (fun acc current => acc + current) 0

/-- The `booksById` map of the source: a `Map` built by inserting every book
keyed by its id, so a lookup returns the last book with the given id. -/
def booksById (books : List Book) (bid : String) : Option Book :=
  books.reverse.find? (fun b => b.id == bid)

structure BookFormState where
  title : String
  author : String
  totalPages : Option Int
  targetDate : Option Int := none
  notes : String := ""
deriving DecidableEq, Repr

structure SessionFormState where
  bookId : String
  date : Int
  pagesRead : Option Int
  minutes : Option Int
  note : String := ""
deriving DecidableEq, Repr

/-- `handleBookSubmit`: the validation sequence and the `setState` call that
prepends the new book.  Returns the next state and the surfaced error. -/
def handleBookSubmit (newId : String) (today : Int) (st : TrackerState)
    (form : BookFormState) : TrackerState × Option String :=
  if trimString form.title = "" ∨ trimString form.author = "" then
    (st, some "Title and author are both required.")
  else
    match form.totalPages with
    | none => (st, some "Total pages must be a positive number.")
    | some totalPages =>
      if totalPages ≤ 0 then
        (st, some "Total pages must be a positive number.")
      else
        ({ st with books :=
            { id := newId
              title := trimString form.title
              author := trimString form.author
              totalPages := totalPages
              currentPage := 0
              status := .notStarted
              startedAt := today
              targetDate := form.targetDate
              notes := if trimString form.notes = "" then none
                       else some (trimString form.notes) } :: st.books }, none)

/-- The `clampedPages` expression of `handleSessionSubmit`:
`clamp(pages, 1, Math.max(book.totalPages - book.currentPage, pages))`. -/
def effectivePages (totalPages currentPage pages : Int) : Int :=
  clamp pages 1 (max (totalPages - currentPage) pages)

/-- Stable insertion of a session into a date-descending list: the new
session goes before the first element whose date is not larger. -/
def insertSessionDesc (s : ReadingSession) :
    List ReadingSession → List ReadingSession
  | [] => [s]
  | a :: rest =>
    if s.date < a.date then a :: insertSessionDesc s rest
    else s :: a :: rest

/-- The descending-by-date re-sort applied to the session list:
`[newSession, ...prev.sessions].sort((a, b) => dateOf b - dateOf a)`.
JavaScript `Array.prototype.sort` is stable (ES2019); it is modelled as the
canonical stable insertion sort, which produces the same date-descending
stable order and, unlike `List.mergeSort`, is kernel-computable. -/
def sortSessionsDesc : List ReadingSession → List ReadingSession
  | [] => []
  | s :: rest => insertSessionDesc s (sortSessionsDesc rest)

/-- The successful branch of `handleSessionSubmit`: build the session from
the looked-up book, re-sort the session list, and update the owning book. -/
def logApply (newId : String) (st : TrackerState) (form : SessionFormState)
    (book : Book) (pages minutes : Int) : TrackerState :=
  let clampedPages := effectivePages book.totalPages book.currentPage pages
  let newSession : ReadingSession :=
    { id := newId
      bookId := book.id
      date := form.date
      pagesRead := clampedPages
      minutes := minutes
      note := if trimString form.note = "" then none else some (trimString form.note) }
  { st with
      sessions := sortSessionsDesc (newSession :: st.sessions)
      books := st.books.map fun item =>
        if item.id == book.id then
          { item with
              currentPage := clamp (item.currentPage + clampedPages) 0 item.totalPages
              status :=
                if item.totalPages ≤ item.currentPage + clampedPages then
                  .completed
                else
                  .inProgress }
        else item }

/-- `handleSessionSubmit`: the validation sequence followed by `logApply`. -/
def handleSessionSubmit (newId : String) (st : TrackerState)
    (form : SessionFormState) : TrackerState × Option String :=
  if form.bookId = "" then
    (st, some "Please pick a book before logging a session.")
  else
    match booksById st.books form.bookId with
    | none => (st, some "Selected book no longer exists.")
    | some book =>
      match form.pagesRead with
      | none => (st, some "Pages read must be a positive number.")
      | some pages =>
        if pages ≤ 0 then
          (st, some "Pages read must be a positive number.")
        else
          match form.minutes with
          | none => (st, some "Minutes must be a positive number.")
          | some minutes =>
            if minutes ≤ 0 then
              (st, some "Minutes must be a positive number.")
            else
              (logApply newId st form book pages minutes, none)

/-- `updateBookProgress`: manual override of `currentPage`; the status is
computed from the raw `value`, the stored page from the clamped one. -/
def updateBookProgress (st : TrackerState) (bookId : String) (value : Int) :
    TrackerState :=
  { st with
      books := st.books.map fun book =>
        if book.id == bookId then
          { book with
              currentPage := clamp value 0 book.totalPages
              status :=
                if book.totalPages ≤ value then .completed
                else if value = 0 then .notStarted
                else .inProgress }
        else book }

/-- `removeSession`: no-op when the id is absent, otherwise drop the session
and reverse its stored effect on the owning book. -/
def removeSession (st : TrackerState) (sessionId : String) : TrackerState :=
  match st.sessions.find? (fun item => item.id == sessionId) with
  | none => st
  | some session =>
    { st with
        sessions := st.sessions.filter (fun item => item.id != sessionId)
        books := st.books.map fun item =>
          if item.id == session.bookId then
            { item with
                currentPage :=
                  clamp (item.currentPage - session.pagesRead) 0 item.totalPages
                status :=
                  if item.currentPage - session.pagesRead ≤ 0 then .notStarted
                  else .inProgress }
          else item }

/-- The load effect: a parsed blob (`none` models a missing key or a
`JSON.parse` failure, both of which leave `DEFAULT_STATE` in place) is merged
over the defaults field by field, exactly as the spread
`{...DEFAULT_STATE, ...parsed, preferences: {...defaults, ...parsed.preferences}}`
does: a missing key (`Option.none`) keeps the default. -/
structure RawPreferences where
  weeklyMinutesGoal : Option Int := none
  dailyPagesGoal : Option Int := none
  showCompleted : Option Bool := none
deriving DecidableEq, Repr

structure RawState where
  books : Option (List Book) := none
  sessions : Option (List ReadingSession) := none
  preferences : Option RawPreferences := none
deriving DecidableEq, Repr

def mergePreferences (raw : Option RawPreferences) : Preferences :=
  match raw with
  | none => DEFAULT_PREFERENCES
  | some p =>
    { weeklyMinutesGoal := p.weeklyMinutesGoal.getD DEFAULT_PREFERENCES.weeklyMinutesGoal
      dailyPagesGoal := p.dailyPagesGoal.getD DEFAULT_PREFERENCES.dailyPagesGoal
      showCompleted := p.showCompleted.getD DEFAULT_PREFERENCES.showCompleted }

def loadState (parsed : Option RawState) : TrackerState :=
  match parsed with
  | none => DEFAULT_STATE
  | some raw =>
    { books := raw.books.getD DEFAULT_STATE.books
      sessions := raw.sessions.getD DEFAULT_STATE.sessions
      preferences := mergePreferences raw.preferences }

/-- `weekStart`: today minus six days (midnight of that calendar day). -/
def weekStart (today : Int) : Int := today - 6

/-- `sessionsThisWeek = state.sessions.filter(s => new Date(s.date) >= weekStart)`. -/
def sessionsThisWeek (sessions : List ReadingSession) (today : Int) :
    List ReadingSession :=
  sessions.filter (fun s => weekStart today ≤ s.date)

def minutesThisWeek (sessions : List ReadingSession) (today : Int) : Int :=
  sum ((sessionsThisWeek sessions today).map (fun s => s.minutes))

def pagesThisWeek (sessions : List ReadingSession) (today : Int) : Int :=
  sum ((sessionsThisWeek sessions today).map (fun s => s.pagesRead))

/-- Modelled from the spec (specification-side definition, for comparison
with the code's `minutesThisWeek`): the sum of minutes over sessions whose
date lies in the inclusive window `[today - 6, today]`. -/
def minutesThisWeekSpec (sessions : List ReadingSession) (today : Int) : Int :=
  sum ((sessions.filter
    (fun s => weekStart today ≤ s.date ∧ s.date ≤ today)).map (fun s => s.minutes))

/-- Modelled from the spec: the sum of `pagesRead` over sessions whose date
lies in the inclusive window `[today - 6, today]`. -/
def pagesThisWeekSpec (sessions : List ReadingSession) (today : Int) : Int :=
  sum ((sessions.filter
    (fun s => weekStart today ≤ s.date ∧ s.date ≤ today)).map (fun s => s.pagesRead))

/-- The body of the streak `for (;;)` loop.  Each iteration either counts the
current day and steps back, steps back once without counting (the grace step,
only available while `counter = 0`), or breaks and returns the counter.  The
`fuel` argument bounds the iterations; `days.length + 2` always suffices:
counting steps visit strictly decreasing days that must belong to `days`, at
most one grace step can occur (afterwards the grace guard `counter = 0`
fails), and one further iteration reaches the break. -/
def streakLoop (days : List Int) : Nat → Int → Nat → Nat
  | 0, _, counter => counter
  | fuel + 1, current, counter =>
    if current ∈ days then
      streakLoop days fuel (current - 1) (counter + 1)
    else if counter = 0 ∧ (current - 1) ∈ days then
      streakLoop days fuel (current - 1) counter
    else
      counter

/-- The `streak` statistic: `0` for an empty session list, otherwise the
backward walk from today over the set of session dates. -/
def streak (sessions : List ReadingSession) (today : Int) : Nat :=
  if sessions = [] then 0
  else
    let days := sessions.map (fun s => s.date)
    streakLoop days (days.length + 2) today 0

/-- The sum of the stored `pagesRead` values of the sessions of one book. -/
def bookSessionSum (sessions : List ReadingSession) (bid : String) : Int :=
  sum ((sessions.filter (fun s => s.bookId == bid)).map (fun s => s.pagesRead))

/-! ### The operation alphabet and reachable states -/

/-- One user-visible mutation of the tracker state.  The fresh ids produced
by `safeId()` are carried as explicit arguments. -/
inductive Op where
  | addBook (newId : String) (today : Int) (form : BookFormState)
  | logSession (newId : String) (form : SessionFormState)
  | removeOp (sessionId : String)
  | setProgress (bookId : String) (value : Int)
deriving DecidableEq, Repr

def applyOp (st : TrackerState) : Op → TrackerState
  | .addBook newId today form => (handleBookSubmit newId today st form).1
  | .logSession newId form => (handleSessionSubmit newId st form).1
  | .removeOp sid => removeSession st sid
  | .setProgress bid v => updateBookProgress st bid v

/-- The state reached from `DEFAULT_STATE` by a sequence of operations. -/
def runOps (ops : List Op) : TrackerState :=
  ops.foldl applyOp DEFAULT_STATE

/-- The status dictated by the page counts, per the spec's derived-tag rule:
`completed` iff `currentPage >= totalPages`, `not-started` iff
`currentPage == 0`, else `in-progress`. -/
def statusOf (currentPage totalPages : Int) : BookStatus :=
  if totalPages ≤ currentPage then .completed
  else if currentPage = 0 then .notStarted
  else .inProgress

/-- A book whose stored status and page counts are mutually consistent. -/
def GoodBook (b : Book) : Prop :=
  b.status = statusOf b.currentPage b.totalPages ∧
    0 ≤ b.currentPage ∧ b.currentPage ≤ b.totalPages ∧ 1 ≤ b.totalPages

/-- The status invariant: every book is consistent and every stored session
records at least one page. -/
def StatusInv (st : TrackerState) : Prop :=
  (∀ b ∈ st.books, GoodBook b) ∧ ∀ s ∈ st.sessions, 1 ≤ s.pagesRead

/-- Operations whose `SetBookProgress` value is non-negative (the range
slider of the presentation layer only produces values in `[0, totalPages]`). -/
def opNonneg : Op → Bool
  | .setProgress _ v => decide (0 ≤ v)
  | _ => true

/-- One operation is safe for the session-ledger invariant: generated ids
are fresh, `SetBookProgress` does not occur, and a `LogSession` requests at
most the remaining pages of the target book. -/
def safeOp (st : TrackerState) : Op → Bool
  | .addBook newId _ _ => st.books.all (fun b => b.id != newId)
  | .logSession newId form =>
    st.sessions.all (fun s => s.id != newId) &&
      (match booksById st.books form.bookId, form.pagesRead with
       | some book, some p => decide (p ≤ book.totalPages - book.currentPage)
       | _, _ => true)
  | .removeOp _ => true
  | .setProgress _ _ => false

/-- Every step of the trace is safe in the state it is applied to. -/
def safeTrace : TrackerState → List Op → Bool
  | _, [] => true
  | st, op :: ops => safeOp st op && safeTrace (applyOp st op) ops

/-- The session-ledger invariant: every book's `currentPage` is the sum of
the stored `pagesRead` of its sessions (and stays within `totalPages`),
record ids are duplicate-free, and every session cites an existing book and
at least one page. -/
def LedgerInv (st : TrackerState) : Prop :=
  (∀ b ∈ st.books, b.currentPage = bookSessionSum st.sessions b.id ∧
      b.currentPage ≤ b.totalPages) ∧
  (st.books.map (fun b => b.id)).Nodup ∧
  (st.sessions.map (fun s => s.id)).Nodup ∧
  ∀ s ∈ st.sessions, 1 ≤ s.pagesRead ∧ ∃ b ∈ st.books, b.id = s.bookId

/-! ### Arithmetic and list helper lemmas -/

theorem clamp_eq_self (v lo hi : Int) (h1 : lo ≤ v) (h2 : v ≤ hi) :
    clamp v lo hi = v := by
  unfold clamp
  rw [max_eq_left h1]
  exact min_eq_left h2

theorem clamp_eq_hi (v lo hi : Int) (h1 : hi ≤ v) : clamp v lo hi = hi := by
  unfold clamp
  exact min_eq_right (le_trans h1 (le_max_left _ _))

theorem clamp_eq_lo (v lo hi : Int) (h1 : v ≤ lo) (h2 : lo ≤ hi) :
    clamp v lo hi = lo := by
  unfold clamp
  rw [max_eq_right h1]
  exact min_eq_left h2

theorem effectivePages_eq_raw (totalPages currentPage pages : Int)
    (h : 1 ≤ pages) : effectivePages totalPages currentPage pages = pages := by
  unfold effectivePages clamp
  rw [max_eq_left h]
  exact min_eq_left (le_max_right _ _)

theorem foldl_add_shift (l : List Int) (s : Int) :
    l.foldl (fun acc current => acc + current) s
      = s + l.foldl (fun acc current => acc + current) 0 := by
  induction l generalizing s with
  | nil => simp
  | cons a t ih =>
    simp only [List.foldl_cons]
    rw [ih (s + a), ih (0 + a)]
    ring

theorem sum_nil : sum [] = 0 := rfl

theorem sum_cons (a : Int) (l : List Int) : sum (a :: l) = a + sum l := by
  simp only [sum, List.foldl_cons]
  rw [foldl_add_shift]
  ring

theorem sum_eq_listSum (l : List Int) : sum l = l.sum := by
  induction l with
  | nil => rfl
  | cons a t ih => rw [sum_cons, List.sum_cons, ih]

theorem sum_perm {l₁ l₂ : List Int} (h : l₁.Perm l₂) : sum l₁ = sum l₂ := by
  rw [sum_eq_listSum, sum_eq_listSum]
  exact h.sum_eq

theorem sum_nonneg_of_mem {l : List Int} (h : ∀ x ∈ l, 0 ≤ x) : 0 ≤ sum l := by
  induction l with
  | nil => simp [sum_nil]
  | cons a t ih =>
    rw [sum_cons]
    exact add_nonneg (h a (List.mem_cons_self a t))
      (ih fun x hx => h x (List.mem_cons_of_mem a hx))

theorem bookSessionSum_nil (bid : String) : bookSessionSum [] bid = 0 := rfl

theorem bookSessionSum_cons (s : ReadingSession) (l : List ReadingSession)
    (bid : String) :
    bookSessionSum (s :: l) bid
      = (if s.bookId == bid then s.pagesRead else 0) + bookSessionSum l bid := by
  by_cases h : s.bookId == bid <;>
    simp [bookSessionSum, List.filter_cons, h, sum_cons]

theorem bookSessionSum_perm {l₁ l₂ : List ReadingSession}
    (h : l₁.Perm l₂) (bid : String) :
    bookSessionSum l₁ bid = bookSessionSum l₂ bid :=
  sum_perm ((h.filter _).map _)

theorem bookSessionSum_nonneg {l : List ReadingSession}
    (h : ∀ s ∈ l, 0 ≤ s.pagesRead) (bid : String) : 0 ≤ bookSessionSum l bid := by
  apply sum_nonneg_of_mem
  intro x hx
  obtain ⟨s, hs, rfl⟩ := List.mem_map.mp hx
  exact h s (List.mem_of_mem_filter hs)

theorem bookSessionSum_remove (l : List ReadingSession) (s : ReadingSession)
    (hs : s ∈ l) (hnd : (l.map (fun x => x.id)).Nodup) (bid : String) :
    bookSessionSum (l.filter (fun x => x.id != s.id)) bid
      = bookSessionSum l bid - (if s.bookId == bid then s.pagesRead else 0) := by
  induction l with
  | nil => cases hs
  | cons a t ih =>
    rw [List.map_cons, List.nodup_cons] at hnd
    obtain ⟨ha, hnd'⟩ := hnd
    rcases List.mem_cons.mp hs with rfl | hst
    · have hfilter : t.filter (fun x => x.id != s.id) = t := by
        apply List.filter_eq_self.mpr
        intro x hx
        simp only [bne_iff_ne, ne_eq, decide_eq_true_eq]
        intro hEq
        exact ha (hEq ▸ List.mem_map_of_mem (fun x => x.id) hx)
      rw [List.filter_cons, if_neg (by simp), hfilter, bookSessionSum_cons]
      ring
    · have hne : a.id ≠ s.id := fun hEq =>
        ha (hEq ▸ List.mem_map_of_mem (fun x => x.id) hst)
      rw [List.filter_cons, if_pos (by simp [hne]), bookSessionSum_cons,
        bookSessionSum_cons, ih hst hnd']
      ring

theorem booksById_map (books : List Book) (f : Book → Book)
    (hid : ∀ b, (f b).id = b.id) (bid : String) :
    booksById (books.map f) bid = (booksById books bid).map f := by
  unfold booksById
  rw [← List.map_reverse, List.find?_map]
  have hp : ((fun b => b.id == bid) ∘ f) = (fun b : Book => b.id == bid) :=
    funext fun b => by simp [Function.comp, hid b]
  rw [hp]

theorem mem_of_booksById {books : List Book} {bid : String} {book : Book}
    (h : booksById books bid = some book) : book ∈ books := by
  have := List.mem_of_find?_eq_some h
  exact List.mem_reverse.mp this

theorem id_of_booksById {books : List Book} {bid : String} {book : Book}
    (h : booksById books bid = some book) : book.id = bid := by
  have := List.find?_some h
  simpa using this

theorem insertSessionDesc_perm (s : ReadingSession) (l : List ReadingSession) :
    (insertSessionDesc s l).Perm (s :: l) := by
  induction l with
  | nil => exact List.Perm.refl _
  | cons a rest ih =>
    rw [insertSessionDesc]
    by_cases h : s.date < a.date
    · rw [if_pos h]
      exact (ih.cons a).trans (List.Perm.swap s a rest)
    · rw [if_neg h]

theorem sortSessionsDesc_perm (l : List ReadingSession) :
    (sortSessionsDesc l).Perm l := by
  induction l with
  | nil => exact List.Perm.refl _
  | cons s rest ih =>
    rw [sortSessionsDesc]
    exact (insertSessionDesc_perm s _).trans (ih.cons s)

theorem mem_sortSessionsDesc {s : ReadingSession} {l : List ReadingSession} :
    s ∈ sortSessionsDesc l ↔ s ∈ l :=
  (sortSessionsDesc_perm l).mem_iff

theorem find?_sortSessionsDesc_fresh (ns : ReadingSession)
    (old : List ReadingSession) (sid : String) (hnsid : ns.id = sid)
    (hfresh : ∀ s ∈ old, s.id ≠ sid) :
    (sortSessionsDesc (ns :: old)).find? (fun item => item.id == sid)
      = some ns := by
  cases hfind : (sortSessionsDesc (ns :: old)).find? (fun item => item.id == sid) with
  | none =>
    exfalso
    have hmem : ns ∈ sortSessionsDesc (ns :: old) :=
      mem_sortSessionsDesc.mpr (List.mem_cons_self _ _)
    have := List.find?_eq_none.mp hfind ns hmem
    simp [hnsid] at this
  | some y =>
    have hy := List.find?_some hfind
    have hmem := List.mem_of_find?_eq_some hfind
    rw [mem_sortSessionsDesc] at hmem
    rcases List.mem_cons.mp hmem with rfl | hyold
    · rfl
    · exfalso
      exact hfresh y hyold (by simpa using hy)

theorem clamp_le (v lo hi : Int) : clamp v lo hi ≤ hi :=
  min_le_right _ _

theorem le_clamp (v lo hi : Int) (h : lo ≤ hi) : lo ≤ clamp v lo hi :=
  le_min (le_max_right _ _) h

theorem StatusInv_default : StatusInv DEFAULT_STATE := by
  constructor <;> intro x hx <;> cases hx

theorem GoodBook_mk (i t a : String) (T d : Int) (td : Option Int)
    (n : Option String) (hT : 1 ≤ T) :
    GoodBook { id := i, title := t, author := a, totalPages := T,
               currentPage := 0, status := .notStarted, startedAt := d,
               targetDate := td, notes := n } := by
  unfold GoodBook
  dsimp only
  refine ⟨?_, le_refl 0, by omega, hT⟩
  unfold statusOf
  rw [if_neg (by omega), if_pos rfl]

theorem StatusInv_handleBookSubmit (newId : String) (today : Int)
    (st : TrackerState) (form : BookFormState) (h : StatusInv st) :
    StatusInv (handleBookSubmit newId today st form).1 := by
  unfold handleBookSubmit
  split
  · exact h
  · split
    · exact h
    · rename_i totalPages heq
      split
      · exact h
      · rename_i hpos
        constructor
        · intro b hb
          rcases List.mem_cons.mp hb with rfl | hb'
          · apply GoodBook_mk
            omega
          · exact h.1 b hb'
        · exact h.2

theorem StatusInv_logApply (newId : String) (st : TrackerState)
    (form : SessionFormState) (book : Book) (pages minutes : Int)
    (hp : 1 ≤ pages) (h : StatusInv st) :
    StatusInv (logApply newId st form book pages minutes) := by
  obtain ⟨hb, hs⟩ := h
  have hcp : effectivePages book.totalPages book.currentPage pages = pages :=
    effectivePages_eq_raw _ _ _ hp
  constructor
  · intro b hbmem
    simp only [logApply] at hbmem
    obtain ⟨item, hitem, rfl⟩ := List.mem_map.mp hbmem
    obtain ⟨hst, hc0, hcT, hT⟩ := hb item hitem
    by_cases hid : item.id == book.id
    · rw [if_pos hid]
      unfold GoodBook
      dsimp only
      rw [hcp]
      refine ⟨?_, le_clamp _ _ _ (by omega), clamp_le _ _ _, hT⟩
      by_cases hover : item.totalPages ≤ item.currentPage + pages
      · rw [if_pos hover,
          clamp_eq_hi (item.currentPage + pages) 0 item.totalPages hover]
        unfold statusOf
        rw [if_pos (le_refl _)]
      · rw [if_neg hover,
          clamp_eq_self (item.currentPage + pages) 0 item.totalPages
            (by omega) (by omega)]
        unfold statusOf
        rw [if_neg hover, if_neg (by omega)]
    · rw [if_neg hid]
      exact ⟨hst, hc0, hcT, hT⟩
  · intro s hs'
    simp only [logApply, hcp] at hs'
    rw [mem_sortSessionsDesc] at hs'
    rcases List.mem_cons.mp hs' with rfl | h'
    · exact hp
    · exact hs s h'

theorem handleSessionSubmit_success (newId : String) (st : TrackerState)
    (form : SessionFormState) (book : Book) (pages minutes : Int)
    (hbid : ¬ form.bookId = "")
    (hlook : booksById st.books form.bookId = some book)
    (hpages : form.pagesRead = some pages) (hp : ¬ pages ≤ 0)
    (hminutes : form.minutes = some minutes) (hm : ¬ minutes ≤ 0) :
    handleSessionSubmit newId st form
      = (logApply newId st form book pages minutes, none) := by
  simp only [handleSessionSubmit, if_neg hbid, hlook, hpages, if_neg hp,
    hminutes, if_neg hm]

theorem StatusInv_handleSessionSubmit (newId : String) (st : TrackerState)
    (form : SessionFormState) (h : StatusInv st) :
    StatusInv (handleSessionSubmit newId st form).1 := by
  unfold handleSessionSubmit
  split
  · exact h
  · split
    · exact h
    · rename_i book hlook
      split
      · exact h
      · rename_i pages hpages
        split
        · exact h
        · rename_i hpos
          split
          · exact h
          · rename_i minutes hminutes
            split
            · exact h
            · exact StatusInv_logApply newId st form book pages minutes
                (by omega) h

theorem StatusInv_removeSession (st : TrackerState) (sid : String)
    (h : StatusInv st) : StatusInv (removeSession st sid) := by
  unfold removeSession
  cases hfind : st.sessions.find? (fun item => item.id == sid) with
  | none => exact h
  | some session =>
    obtain ⟨hb, hs⟩ := h
    have hp1 : 1 ≤ session.pagesRead :=
      hs session (List.mem_of_find?_eq_some hfind)
    constructor
    · intro b hbmem
      obtain ⟨item, hitem, rfl⟩ := List.mem_map.mp hbmem
      obtain ⟨hst, hc0, hcT, hT⟩ := hb item hitem
      by_cases hid : item.id == session.bookId
      · rw [if_pos hid]
        unfold GoodBook
        dsimp only
        refine ⟨?_, le_clamp _ _ _ (by omega), clamp_le _ _ _, hT⟩
        by_cases hz : item.currentPage - session.pagesRead ≤ 0
        · rw [if_pos hz,
            clamp_eq_lo (item.currentPage - session.pagesRead) 0 item.totalPages
              hz (by omega)]
          unfold statusOf
          rw [if_neg (by omega), if_pos rfl]
        · rw [if_neg hz,
            clamp_eq_self (item.currentPage - session.pagesRead) 0 item.totalPages
              (by omega) (by omega)]
          unfold statusOf
          rw [if_neg (by omega), if_neg (by omega)]
      · rw [if_neg hid]
        exact ⟨hst, hc0, hcT, hT⟩
    · intro s hs'
      exact hs s (List.mem_of_mem_filter hs')

theorem StatusInv_updateBookProgress (st : TrackerState) (bid : String)
    (v : Int) (hv : 0 ≤ v) (h : StatusInv st) :
    StatusInv (updateBookProgress st bid v) := by
  obtain ⟨hb, hs⟩ := h
  constructor
  · intro b hbmem
    obtain ⟨item, hitem, rfl⟩ := List.mem_map.mp (by simpa [updateBookProgress] using hbmem)
    obtain ⟨hst, hc0, hcT, hT⟩ := hb item hitem
    by_cases hid : item.id = bid
    · rw [if_pos hid]
      unfold GoodBook
      dsimp only
      refine ⟨?_, le_clamp _ _ _ (by omega), clamp_le _ _ _, hT⟩
      by_cases hTv : item.totalPages ≤ v
      · rw [if_pos hTv, clamp_eq_hi v 0 item.totalPages hTv]
        unfold statusOf
        rw [if_pos (le_refl _)]
      · rw [if_neg hTv, clamp_eq_self v 0 item.totalPages hv (by omega)]
        by_cases hz : v = 0
        · rw [if_pos hz]
          unfold statusOf
          rw [if_neg (by omega), if_pos hz]
        · rw [if_neg hz]
          unfold statusOf
          rw [if_neg hTv, if_neg hz]
    · rw [if_neg hid]
      exact ⟨hst, hc0, hcT, hT⟩
  · exact hs

theorem StatusInv_foldl (ops : List Op) (st : TrackerState) (h : StatusInv st)
    (hops : ∀ op ∈ ops, opNonneg op = true) : StatusInv (ops.foldl applyOp st) := by
  induction ops generalizing st with
  | nil => exact h
  | cons op rest ih =>
    rw [List.foldl_cons]
    refine ih (applyOp st op) ?_ fun op' hop' => hops op' (List.mem_cons_of_mem _ hop')
    cases op with
    | addBook newId today form => exact StatusInv_handleBookSubmit newId today st form h
    | logSession newId form => exact StatusInv_handleSessionSubmit newId st form h
    | removeOp sid => exact StatusInv_removeSession st sid h
    | setProgress bid v =>
      exact StatusInv_updateBookProgress st bid v
        (by simpa [opNonneg] using hops _ (List.mem_cons_self _ _)) h

/-! ### Preservation of the session-ledger invariant -/

theorem bookSessionSum_eq_zero {l : List ReadingSession} {bid : String}
    (h : ∀ s ∈ l, s.bookId ≠ bid) : bookSessionSum l bid = 0 := by
  unfold bookSessionSum
  have hnil : l.filter (fun s => s.bookId == bid) = [] := by
    rw [List.filter_eq_nil_iff]
    intro a ha
    simp [h a ha]
  rw [hnil]
  rfl

theorem map_id_map_update (books : List Book) (f : Book → Book)
    (hid : ∀ b, (f b).id = b.id) :
    (books.map f).map (fun b => b.id) = books.map (fun b => b.id) := by
  rw [List.map_map]
  apply List.map_congr_left
  intro b hb
  exact hid b

theorem nodup_ids_sortSessionsDesc (l : List ReadingSession)
    (h : (l.map (fun s => s.id)).Nodup) :
    ((sortSessionsDesc l).map (fun s => s.id)).Nodup :=
  (((sortSessionsDesc_perm l).map (fun s : ReadingSession => s.id)).nodup_iff).mpr h

theorem bookSessionSum_sortDesc_cons (ns : ReadingSession)
    (l : List ReadingSession) (bid : String) :
    bookSessionSum (sortSessionsDesc (ns :: l)) bid
      = (if ns.bookId == bid then ns.pagesRead else 0) + bookSessionSum l bid := by
  rw [bookSessionSum_perm (sortSessionsDesc_perm _) bid, bookSessionSum_cons]

theorem LedgerInv_default : LedgerInv DEFAULT_STATE := by
  refine ⟨?_, ?_, ?_, ?_⟩ <;> first
    | exact List.nodup_nil
    | (intro x hx; cases hx)

theorem LedgerInv_handleBookSubmit (newId : String) (today : Int)
    (st : TrackerState) (form : BookFormState)
    (hfresh : st.books.all (fun b => b.id != newId) = true)
    (h : LedgerInv st) : LedgerInv (handleBookSubmit newId today st form).1 := by
  obtain ⟨hled, hbnd, hsnd, hsess⟩ := h
  have hfresh' : ∀ b ∈ st.books, b.id ≠ newId := by
    intro b hb
    simpa using List.all_eq_true.mp hfresh b hb
  unfold handleBookSubmit
  split
  · exact ⟨hled, hbnd, hsnd, hsess⟩
  · split
    · exact ⟨hled, hbnd, hsnd, hsess⟩
    · rename_i totalPages heq
      split
      · exact ⟨hled, hbnd, hsnd, hsess⟩
      · rename_i hpos
        refine ⟨?_, ?_, hsnd, ?_⟩
        · intro b hb
          rcases List.mem_cons.mp hb with rfl | hb'
          · constructor
            · show (0 : Int) = bookSessionSum st.sessions newId
              rw [bookSessionSum_eq_zero ?_]
              intro s hsmem
              obtain ⟨hp1, bref, hbref, hbid⟩ := hsess s hsmem
              exact fun hEq => hfresh' bref hbref (hbid.trans hEq)
            · show (0 : Int) ≤ totalPages
              omega
          · exact hled b hb'
        · refine List.nodup_cons.mpr ⟨?_, hbnd⟩
          intro hmem
          obtain ⟨b, hb, hbid⟩ := List.mem_map.mp hmem
          exact hfresh' b hb hbid
        · intro s hsmem
          obtain ⟨hp1, b, hb, hbid⟩ := hsess s hsmem
          exact ⟨hp1, b, List.mem_cons_of_mem _ hb, hbid⟩

theorem LedgerInv_logApply (newId : String) (st : TrackerState)
    (form : SessionFormState) (book : Book) (pages minutes : Int)
    (hlook : booksById st.books form.bookId = some book)
    (hp : 1 ≤ pages)
    (hsafe : pages ≤ book.totalPages - book.currentPage)
    (hfresh : ∀ s ∈ st.sessions, s.id ≠ newId)
    (h : LedgerInv st) : LedgerInv (logApply newId st form book pages minutes) := by
  obtain ⟨hled, hbnd, hsnd, hsess⟩ := h
  have hcp : effectivePages book.totalPages book.currentPage pages = pages :=
    effectivePages_eq_raw _ _ _ hp
  have hbookmem : book ∈ st.books := mem_of_booksById hlook
  simp only [logApply, hcp]
  refine ⟨?_, ?_, ?_, ?_⟩
  · intro b hb
    obtain ⟨item, hitem, rfl⟩ := List.mem_map.mp hb
    by_cases hid : item.id == book.id
    · have hitem_eq : item = book :=
        List.inj_on_of_nodup_map hbnd hitem hbookmem (by simpa using hid)
      subst hitem_eq
      rw [if_pos hid]
      refine ⟨?_, clamp_le _ _ _⟩
      show clamp (item.currentPage + pages) 0 item.totalPages
        = bookSessionSum (sortSessionsDesc _) item.id
      have hc := (hled item hitem).1
      have hc0 : 0 ≤ bookSessionSum st.sessions item.id :=
        bookSessionSum_nonneg (fun s hs => by have := (hsess s hs).1; omega) _
      rw [clamp_eq_self _ _ _ (by omega) (by omega),
        bookSessionSum_sortDesc_cons]
      rw [if_pos (by simp)]
      dsimp only
      omega
    · rw [if_neg hid]
      refine ⟨?_, (hled item hitem).2⟩
      show item.currentPage = bookSessionSum (sortSessionsDesc _) item.id
      rw [bookSessionSum_sortDesc_cons]
      rw [if_neg ?_, (hled item hitem).1]
      · ring
      · show ¬ ((book.id == item.id) = true)
        simpa using fun hEq => (by simpa using hid : item.id ≠ book.id) hEq.symm
  · rw [map_id_map_update st.books _ ?_]
    · exact hbnd
    · intro b
      by_cases hc : b.id == book.id
      · rw [if_pos hc]
      · rw [if_neg hc]
  · apply nodup_ids_sortSessionsDesc
    rw [List.map_cons]
    refine List.nodup_cons.mpr ⟨?_, hsnd⟩
    intro hmem
    obtain ⟨s, hs, hsid⟩ := List.mem_map.mp hmem
    exact hfresh s hs hsid
  · intro s hs'
    rw [mem_sortSessionsDesc] at hs'
    rcases List.mem_cons.mp hs' with rfl | hold
    · refine ⟨hp, ?_⟩
      refine ⟨_, List.mem_map_of_mem _ hbookmem, ?_⟩
      have hcase : (book.id == book.id) = true := by simp
      rw [if_pos hcase]
    · obtain ⟨hp1, b, hb, hbid⟩ := hsess s hold
      refine ⟨hp1, ?_⟩
      refine ⟨_, List.mem_map_of_mem _ hb, ?_⟩
      by_cases hcase : b.id == book.id
      · rw [if_pos hcase]
        exact hbid
      · rw [if_neg hcase]
        exact hbid

theorem LedgerInv_handleSessionSubmit (newId : String) (st : TrackerState)
    (form : SessionFormState)
    (hsafe : safeOp st (.logSession newId form) = true)
    (h : LedgerInv st) : LedgerInv (handleSessionSubmit newId st form).1 := by
  unfold safeOp at hsafe
  rw [Bool.and_eq_true] at hsafe
  obtain ⟨hfr, hcl⟩ := hsafe
  have hfresh : ∀ s ∈ st.sessions, s.id ≠ newId := by
    intro s hs
    simpa using List.all_eq_true.mp hfr s hs
  unfold handleSessionSubmit
  split
  · exact h
  · split
    · exact h
    · rename_i book hlook
      split
      · exact h
      · rename_i pages hpages
        split
        · exact h
        · rename_i hpos
          split
          · exact h
          · rename_i minutes hminutes
            split
            · exact h
            · refine LedgerInv_logApply newId st form book pages minutes hlook
                (by omega) ?_ hfresh h
              rw [hlook, hpages] at hcl
              exact of_decide_eq_true hcl

theorem LedgerInv_removeSession (st : TrackerState) (sid : String)
    (h : LedgerInv st) : LedgerInv (removeSession st sid) := by
  unfold removeSession
  cases hfind : st.sessions.find? (fun item => item.id == sid) with
  | none => exact h
  | some session =>
    obtain ⟨hled, hbnd, hsnd, hsess⟩ := h
    have hsmem := List.mem_of_find?_eq_some hfind
    have hsid : session.id = sid := by simpa using List.find?_some hfind
    subst hsid
    have hrem : ∀ bid, bookSessionSum
        (st.sessions.filter (fun item => item.id != session.id)) bid
        = bookSessionSum st.sessions bid
          - (if session.bookId == bid then session.pagesRead else 0) :=
      fun bid => bookSessionSum_remove st.sessions session hsmem hsnd bid
    have hrge : ∀ bid, 0 ≤ bookSessionSum
        (st.sessions.filter (fun item => item.id != session.id)) bid :=
      fun bid => bookSessionSum_nonneg
        (fun s hs => by have := (hsess s (List.mem_of_mem_filter hs)).1; omega) _
    refine ⟨?_, ?_, ?_, ?_⟩
    · intro b hb
      obtain ⟨item, hitem, rfl⟩ := List.mem_map.mp hb
      have hp1 := (hsess session hsmem).1
      have hc := (hled item hitem).1
      have hcT := (hled item hitem).2
      by_cases hid : item.id == session.bookId
      · rw [if_pos hid]
        refine ⟨?_, clamp_le _ _ _⟩
        show clamp (item.currentPage - session.pagesRead) 0 item.totalPages
          = bookSessionSum _ item.id
        have hcond : (session.bookId == item.id) = true := by
          have : item.id = session.bookId := by simpa using hid
          simp [this]
        have hge := hrge item.id
        rw [hrem item.id, hcond] at hge
        simp only [if_true] at hge
        rw [clamp_eq_self _ _ _ (by omega) (by omega), hrem item.id, hcond]
        simp only [if_true]
        omega
      · rw [if_neg hid]
        refine ⟨?_, (hled item hitem).2⟩
        show item.currentPage = bookSessionSum _ item.id
        have hcond : (session.bookId == item.id) = false := by
          have hne : item.id ≠ session.bookId := by simpa using hid
          exact beq_eq_false_iff_ne.mpr fun hEq => hne hEq.symm
        rw [hrem item.id, hcond, if_neg (by decide)]
        omega
    · rw [map_id_map_update st.books _ ?_]
      · exact hbnd
      · intro b
        by_cases hc : b.id == session.bookId
        · rw [if_pos hc]
        · rw [if_neg hc]
    · exact hsnd.sublist ((List.filter_sublist _).map _)
    · intro s hs'
      obtain ⟨hp1, b, hb, hbid⟩ := hsess s (List.mem_of_mem_filter hs')
      refine ⟨hp1, ?_⟩
      refine ⟨_, List.mem_map_of_mem _ hb, ?_⟩
      by_cases hcase : b.id == session.bookId
      · rw [if_pos hcase]
        exact hbid
      · rw [if_neg hcase]
        exact hbid

theorem LedgerInv_foldl (ops : List Op) (st : TrackerState)
    (h : LedgerInv st) (hops : safeTrace st ops = true) :
    LedgerInv (ops.foldl applyOp st) := by
  induction ops generalizing st with
  | nil => exact h
  | cons op rest ih =>
    rw [List.foldl_cons]
    unfold safeTrace at hops
    rw [Bool.and_eq_true] at hops
    obtain ⟨hop, hrest⟩ := hops
    refine ih (applyOp st op) ?_ hrest
    cases op with
    | addBook newId today form =>
      exact LedgerInv_handleBookSubmit newId today st form
        (by simpa [safeOp] using hop) h
    | logSession newId form =>
      exact LedgerInv_handleSessionSubmit newId st form hop h
    | removeOp sid => exact LedgerInv_removeSession st sid h
    | setProgress bid v => simp [safeOp] at hop

/-! ### Streak helper: translation invariance of the backward walk -/

theorem streakLoop_shift (c : Int) (days : List Int) :
    ∀ (fuel : Nat) (current : Int) (counter : Nat),
      streakLoop (days.map (fun d => d + c)) fuel (current + c) counter
        = streakLoop days fuel current counter := by
  intro fuel
  induction fuel with
  | zero => intro current counter; rfl
  | succ n ih =>
    intro current counter
    have hmem : (current + c) ∈ days.map (fun d => d + c) ↔ current ∈ days := by
      simp [List.mem_map]
    have hstep : current + c - 1 = (current - 1) + c := by ring
    have hmem' : (current + c - 1) ∈ days.map (fun d => d + c)
        ↔ (current - 1) ∈ days := by
      rw [hstep]
      simp [List.mem_map]
    rw [streakLoop, streakLoop]
    by_cases h1 : current ∈ days
    · rw [if_pos (hmem.mpr h1), if_pos h1, hstep, ih]
    · rw [if_neg (fun hc => h1 (hmem.mp hc)), if_neg h1]
      by_cases h2 : counter = 0 ∧ (current - 1) ∈ days
      · rw [if_pos (⟨h2.1, hmem'.mpr h2.2⟩ : _ ∧ _), if_pos h2, hstep, ih]
      · rw [if_neg (fun hc => h2 ⟨hc.1, hmem'.mp hc.2⟩), if_neg h2]

/-! ### Claims -/

/-- C1 counterexample: a book at 90 of 100 pages; logging 50 pages clamps
`currentPage` to 100, but the session stores the raw 50, so removing it
leaves `currentPage = 50`, not the original 90.  The claim that removal
always restores the pre-log value is therefore false. -/
theorem C1_counterexample :
    (removeSession
        (handleSessionSubmit "s1"
            { books := [⟨"b1", "T", "A", 100, 90, .inProgress, 0, none, none⟩],
              sessions := [], preferences := DEFAULT_PREFERENCES }
            { bookId := "b1", date := 0, pagesRead := some 50,
              minutes := some 10 }).1 "s1").books
      = [⟨"b1", "T", "A", 100, 50, .inProgress, 0, none, none⟩] ∧
    (50 : Int) ≠ 90 := by
  decide

/-- C1 (amended): LogSession followed by RemoveSession of the new session
restores the book's `currentPage` exactly whenever the logged pages fit in
the remaining pages (`currentPage + pagesRead ≤ totalPages`).  When the log
overflows, the book is clamped at `totalPages` but the session stores the
raw value, so removal undershoots (see `C1_counterexample`). -/
theorem C1_log_remove_restores (newId : String) (st : TrackerState)
    (form : SessionFormState) (book : Book) (pages minutes : Int)
    (hbid : ¬ form.bookId = "")
    (hlook : booksById st.books form.bookId = some book)
    (hpages : form.pagesRead = some pages) (hp : 0 < pages)
    (hminutes : form.minutes = some minutes) (hm : 0 < minutes)
    (hfresh : ∀ s ∈ st.sessions, s.id ≠ newId)
    (hc0 : 0 ≤ book.currentPage)
    (hfit : book.currentPage + pages ≤ book.totalPages) :
    (booksById (removeSession (handleSessionSubmit newId st form).1 newId).books
        form.bookId).map (fun b => b.currentPage)
      = some book.currentPage := by
  have hcp : effectivePages book.totalPages book.currentPage pages = pages :=
    effectivePages_eq_raw _ _ _ (by omega)
  rw [handleSessionSubmit_success newId st form book pages minutes hbid hlook
    hpages (by omega) hminutes (by omega)]
  simp only [logApply, hcp]
  have hfind := find?_sortSessionsDesc_fresh
    { id := newId, bookId := book.id, date := form.date, pagesRead := pages,
      minutes := minutes,
      note := if trimString form.note = "" then none else some (trimString form.note) }
    st.sessions newId rfl hfresh
  simp only [removeSession, hfind]
  rw [booksById_map _ _ (fun b => by
      by_cases hc : b.id == book.id
      · rw [if_pos hc]
      · rw [if_neg hc])]
  rw [booksById_map _ _ (fun b => by
      by_cases hc : b.id == book.id
      · rw [if_pos hc]
      · rw [if_neg hc])]
  rw [hlook]
  simp only [Option.map_some', Option.some.injEq]
  have hbeq : (book.id == book.id) = true := by simp
  rw [if_pos hbeq]
  dsimp only
  rw [if_pos hbeq]
  dsimp only
  rw [clamp_eq_self (book.currentPage + pages) 0 book.totalPages
    (by omega) hfit]
  rw [clamp_eq_self _ _ _ (by omega) (by omega)]
  omega

/-- C1 witness: a concrete no-overflow round trip (book at 20 of 100 pages,
log 30 pages) restores `currentPage = 20`. -/
theorem C1_witness :
    (booksById (removeSession
        (handleSessionSubmit "s9"
            { books := [⟨"b1", "T", "A", 100, 20, .inProgress, 0, none, none⟩],
              sessions := [], preferences := DEFAULT_PREFERENCES }
            { bookId := "b1", date := 3, pagesRead := some 30,
              minutes := some 15 }).1 "s9").books "b1").map
        (fun b => b.currentPage)
      = some 20 :=
  C1_log_remove_restores "s9"
    { books := [⟨"b1", "T", "A", 100, 20, .inProgress, 0, none, none⟩],
      sessions := [], preferences := DEFAULT_PREFERENCES }
    { bookId := "b1", date := 3, pagesRead := some 30, minutes := some 15 }
    ⟨"b1", "T", "A", 100, 20, .inProgress, 0, none, none⟩ 30 15
    (by decide) (by decide) rfl (by decide) rfl (by decide)
    (by intro s hs; cases hs) (by decide) (by decide)

/-- C2 counterexample: `SetBookProgress` with a negative value clamps
`currentPage` to `0` but computes the status from the raw value, leaving an
`in-progress` book with `currentPage = 0`, violating
`status == not-started ⇔ currentPage == 0`. -/
theorem C2_counterexample :
    (runOps [Op.addBook "b1" 0
        { title := "T", author := "A", totalPages := some 10 },
      Op.setProgress "b1" (-5)]).books
      = [⟨"b1", "T", "A", 10, 0, .inProgress, 0, none, none⟩] ∧
    BookStatus.inProgress ≠ BookStatus.notStarted := by
  decide

/-- C2 (amended): in every state reachable from the default state by
AddBook, LogSession, RemoveSession and SetBookProgress restricted to
non-negative `newPage` values (all the presentation layer can produce),
every book satisfies `status == completed ⇔ currentPage ≥ totalPages`,
`status == not-started ⇔ currentPage == 0`, and `status == in-progress`
otherwise.  The restriction is forced by `C2_counterexample`. -/
theorem C2_status_consistent (ops : List Op)
    (hops : ∀ op ∈ ops, opNonneg op = true) :
    ∀ b ∈ (runOps ops).books,
      (b.status = BookStatus.completed ↔ b.totalPages ≤ b.currentPage) ∧
      (b.status = BookStatus.notStarted ↔ b.currentPage = 0) ∧
      (b.status = BookStatus.inProgress ↔
        0 < b.currentPage ∧ b.currentPage < b.totalPages) := by
  intro b hb
  have hinv := StatusInv_foldl ops DEFAULT_STATE StatusInv_default hops
  obtain ⟨hst, hc0, hcT, hT⟩ := hinv.1 b hb
  unfold statusOf at hst
  by_cases h1 : b.totalPages ≤ b.currentPage
  · rw [if_pos h1] at hst
    rw [hst]
    exact ⟨by simp [h1], by simp; omega, by simp; omega⟩
  · rw [if_neg h1] at hst
    by_cases h2 : b.currentPage = 0
    · rw [if_pos h2] at hst
      rw [hst]
      exact ⟨by simp; omega, by simp [h2], by simp; omega⟩
    · rw [if_neg h2] at hst
      rw [hst]
      exact ⟨by simp; omega, by simp; omega, by simp; omega⟩

/-- C2 witness: a two-operation trace with a non-negative override; the
resulting book (5 of 10 pages, `in-progress`) satisfies the three
equivalences. -/
theorem C2_witness :
    (BookStatus.inProgress = BookStatus.completed ↔ (10 : Int) ≤ 5) ∧
    (BookStatus.inProgress = BookStatus.notStarted ↔ (5 : Int) = 0) ∧
    (BookStatus.inProgress = BookStatus.inProgress ↔
      (0 : Int) < 5 ∧ (5 : Int) < 10) :=
  C2_status_consistent
    [Op.addBook "b1" 0 { title := "T", author := "A", totalPages := some 10 },
     Op.setProgress "b1" 5]
    (by decide)
    ⟨"b1", "T", "A", 10, 5, .inProgress, 0, none, none⟩ (by decide)

/-- C3 counterexample: a book at 90 of 100 pages; logging 50 pages stores a
session with `pagesRead = 50`, which exceeds the 10 remaining pages even
though `currentPage < totalPages`.  The claim that the stored value is
clamped to the remaining pages is therefore false. -/
theorem C3_counterexample :
    (handleSessionSubmit "s1"
        { books := [⟨"b1", "T", "A", 100, 90, .inProgress, 0, none, none⟩],
          sessions := [], preferences := DEFAULT_PREFERENCES }
        { bookId := "b1", date := 0, pagesRead := some 50,
          minutes := some 10 }).1.sessions
      = [⟨"s1", "b1", 0, 50, 10, none⟩] ∧
    ¬ ((50 : Int) ≤ 100 - 90) := by
  decide

/-- C3 (amended): the clamp
`clamp(pagesRead, 1, max(totalPages - currentPage, pagesRead))` is vacuous
for every positive input, because its upper bound is at least `pagesRead`:
every successful LogSession stores the raw entered value, whether or not the
book is full.  Only the book's `currentPage`, never the stored session, is
clamped. -/
theorem C3_stored_pages_raw (newId : String) (st : TrackerState)
    (form : SessionFormState) (book : Book) (pages minutes : Int)
    (hbid : ¬ form.bookId = "")
    (hlook : booksById st.books form.bookId = some book)
    (hpages : form.pagesRead = some pages) (hp : 0 < pages)
    (hminutes : form.minutes = some minutes) (hm : 0 < minutes)
    (hfresh : ∀ s ∈ st.sessions, s.id ≠ newId) :
    ((handleSessionSubmit newId st form).1.sessions.find?
        (fun item => item.id == newId)).map (fun s => s.pagesRead)
      = some pages := by
  have hcp : effectivePages book.totalPages book.currentPage pages = pages :=
    effectivePages_eq_raw _ _ _ (by omega)
  rw [handleSessionSubmit_success newId st form book pages minutes hbid hlook
    hpages (by omega) hminutes (by omega)]
  simp only [logApply, hcp]
  have hfind := find?_sortSessionsDesc_fresh
    { id := newId, bookId := book.id, date := form.date, pagesRead := pages,
      minutes := minutes,
      note := if trimString form.note = "" then none else some (trimString form.note) }
    st.sessions newId rfl hfresh
  rw [hfind]
  rfl

/-- C3 witness: the 90-of-100 book again; the stored session records the raw
50 pages. -/
theorem C3_witness :
    ((handleSessionSubmit "s1"
        { books := [⟨"b1", "T", "A", 100, 90, .inProgress, 0, none, none⟩],
          sessions := [], preferences := DEFAULT_PREFERENCES }
        { bookId := "b1", date := 0, pagesRead := some 50,
          minutes := some 10 }).1.sessions.find?
        (fun item => item.id == "s1")).map (fun s => s.pagesRead)
      = some 50 :=
  C3_stored_pages_raw "s1"
    { books := [⟨"b1", "T", "A", 100, 90, .inProgress, 0, none, none⟩],
      sessions := [], preferences := DEFAULT_PREFERENCES }
    { bookId := "b1", date := 0, pagesRead := some 50, minutes := some 10 }
    ⟨"b1", "T", "A", 100, 90, .inProgress, 0, none, none⟩ 50 10
    (by decide) (by decide) rfl (by decide) rfl (by decide)
    (by intro s hs; cases hs)

/-- C4 counterexample: add a 10-page book and log 20 pages: `currentPage` is
clamped to 10 while the stored session keeps `pagesRead = 20`, so the sum of
stored sessions (20) differs from `currentPage` (10). -/
theorem C4_counterexample :
    (runOps [Op.addBook "b1" 0
        { title := "T", author := "A", totalPages := some 10 },
      Op.logSession "s1"
        { bookId := "b1", date := 0, pagesRead := some 20, minutes := some 5 }]).books
      = [⟨"b1", "T", "A", 10, 10, .completed, 0, none, none⟩] ∧
    bookSessionSum (runOps [Op.addBook "b1" 0
        { title := "T", author := "A", totalPages := some 10 },
      Op.logSession "s1"
        { bookId := "b1", date := 0, pagesRead := some 20, minutes := some 5 }]).sessions
      "b1" = 20 ∧
    (10 : Int) ≠ 20 := by
  decide

/-- C4 (amended): in every state reachable from the default state by
AddBook, LogSession and RemoveSession with fresh generated ids and with
every LogSession requesting at most the target book's remaining pages
(`safeTrace`), each book's `currentPage` equals the sum of the stored
`pagesRead` of its sessions.  An overflowing LogSession breaks the equality
(`C4_counterexample`): the book is clamped but the stored session is not. -/
theorem C4_ledger_invariant (ops : List Op)
    (hops : safeTrace DEFAULT_STATE ops = true) :
    ∀ b ∈ (runOps ops).books,
      b.currentPage = bookSessionSum (runOps ops).sessions b.id :=
  fun b hb =>
    ((LedgerInv_foldl ops DEFAULT_STATE LedgerInv_default hops).1 b hb).1

/-- C4 witness: add a 10-page book, log 5 pages, remove the session; the
remaining book has `currentPage = 0`, the sum over its (zero) sessions. -/
theorem C4_witness :
    (0 : Int) = bookSessionSum (runOps
      [Op.addBook "b1" 0 { title := "T", author := "A", totalPages := some 10 },
       Op.logSession "s1"
         { bookId := "b1", date := 0, pagesRead := some 5, minutes := some 10 },
       Op.removeOp "s1"]).sessions "b1" :=
  C4_ledger_invariant
    [Op.addBook "b1" 0 { title := "T", author := "A", totalPages := some 10 },
     Op.logSession "s1"
       { bookId := "b1", date := 0, pagesRead := some 5, minutes := some 10 },
     Op.removeOp "s1"] (by decide)
    ⟨"b1", "T", "A", 10, 0, .notStarted, 0, none, none⟩ (by decide)

/-- C5 counterexample: with today = 0, a session dated day 7 (after today)
still counts toward `minutesThisWeek` (30 minutes), while the spec's
inclusive window `[today - 6, today]` would exclude it. -/
theorem C5_counterexample :
    minutesThisWeek [⟨"s7", "b", 7, 12, 30, none⟩] 0 = 30 ∧
    minutesThisWeekSpec [⟨"s7", "b", 7, 12, 30, none⟩] 0 = 0 ∧
    (0 : Int) < 7 := by
  decide

/-- C5 (amended): the weekly sums filter sessions only by the lower bound
`today - 6 ≤ date`; there is no upper bound, so a session dated after today
also contributes (`C5_counterexample`).  When no session is future-dated the
sums coincide with the spec's inclusive window `[today - 6, today]`. -/
theorem C5_week_window (sessions : List ReadingSession) (today : Int)
    (h : ∀ s ∈ sessions, s.date ≤ today) :
    minutesThisWeek sessions today = minutesThisWeekSpec sessions today ∧
    pagesThisWeek sessions today = pagesThisWeekSpec sessions today := by
  have hfilter : sessions.filter (fun s => weekStart today ≤ s.date)
      = sessions.filter
          (fun s => weekStart today ≤ s.date ∧ s.date ≤ today) := by
    apply List.filter_congr
    intro x hx
    simp [h x hx]
  constructor
  · unfold minutesThisWeek minutesThisWeekSpec sessionsThisWeek
    rw [hfilter]
  · unfold pagesThisWeek pagesThisWeekSpec sessionsThisWeek
    rw [hfilter]

/-- C5 witness: a single session two days ago; code and spec windows agree. -/
theorem C5_witness :
    minutesThisWeek [⟨"s", "b", -2, 5, 7, none⟩] 0
      = minutesThisWeekSpec [⟨"s", "b", -2, 5, 7, none⟩] 0 ∧
    pagesThisWeek [⟨"s", "b", -2, 5, 7, none⟩] 0
      = pagesThisWeekSpec [⟨"s", "b", -2, 5, 7, none⟩] 0 :=
  C5_week_window [⟨"s", "b", -2, 5, 7, none⟩] 0 (by decide)

/-- C6 (confirmed): the streak walks backward from today, granting at most
one grace step, only before the first counted day: sessions on today,
today-1, today-2 give streak 3; sessions on today-1 and today-2 only give
streak 2; a session on today-3 only gives streak 0. -/
theorem C6_streak_scenarios (t : Int) :
    streak [⟨"sa", "b", t, 1, 1, none⟩, ⟨"sb", "b", t - 1, 1, 1, none⟩,
        ⟨"sc", "b", t - 2, 1, 1, none⟩] t = 3 ∧
    streak [⟨"sb", "b", t - 1, 1, 1, none⟩,
        ⟨"sc", "b", t - 2, 1, 1, none⟩] t = 2 ∧
    streak [⟨"sd", "b", t - 3, 1, 1, none⟩] t = 0 := by
  refine ⟨?_, ?_, ?_⟩
  · have h0 : streakLoop [(0 : Int), -1, -2] 5 0 0 = 3 := by decide
    have hsh := streakLoop_shift t [0, -1, -2] 5 0 0
    have hl : [(0 : Int), -1, -2].map (fun d => d + t) = [t, t - 1, t - 2] := by
      simp only [List.map_cons, List.map_nil, List.cons.injEq, and_true]
      omega
    have h00 : (0 : Int) + t = t := by ring
    rw [h0, hl, h00] at hsh
    unfold streak
    rw [if_neg (by simp)]
    show streakLoop [t, t - 1, t - 2] 5 t 0 = 3
    exact hsh
  · have h0 : streakLoop [(-1 : Int), -2] 4 0 0 = 2 := by decide
    have hsh := streakLoop_shift t [-1, -2] 4 0 0
    have hl : [(-1 : Int), -2].map (fun d => d + t) = [t - 1, t - 2] := by
      simp only [List.map_cons, List.map_nil, List.cons.injEq, and_true]
      omega
    have h00 : (0 : Int) + t = t := by ring
    rw [h0, hl, h00] at hsh
    unfold streak
    rw [if_neg (by simp)]
    show streakLoop [t - 1, t - 2] 4 t 0 = 2
    exact hsh
  · have h0 : streakLoop [(-3 : Int)] 3 0 0 = 0 := by decide
    have hsh := streakLoop_shift t [-3] 3 0 0
    have hl : [(-3 : Int)].map (fun d => d + t) = [t - 3] := by
      simp only [List.map_cons, List.map_nil, List.cons.injEq, and_true]
      omega
    have h00 : (0 : Int) + t = t := by ring
    rw [h0, hl, h00] at hsh
    unfold streak
    rw [if_neg (by simp)]
    show streakLoop [t - 3] 3 t 0 = 0
    exact hsh

/-- C7 (confirmed): logging more pages than remain on an unfinished book
sets `currentPage` to exactly `totalPages` and the status to `completed`. -/
theorem C7_overflow_completes (newId : String) (st : TrackerState)
    (form : SessionFormState) (book : Book) (pages minutes : Int)
    (hbid : ¬ form.bookId = "")
    (hlook : booksById st.books form.bookId = some book)
    (hpages : form.pagesRead = some pages) (hp : 0 < pages)
    (hminutes : form.minutes = some minutes) (hm : 0 < minutes)
    (hc0 : 0 ≤ book.currentPage)
    (hlt : book.currentPage < book.totalPages)
    (hover : book.totalPages - book.currentPage < pages) :
    (booksById (handleSessionSubmit newId st form).1.books form.bookId).map
        (fun b => (b.currentPage, b.status))
      = some (book.totalPages, BookStatus.completed) := by
  have hcp : effectivePages book.totalPages book.currentPage pages = pages :=
    effectivePages_eq_raw _ _ _ (by omega)
  rw [handleSessionSubmit_success newId st form book pages minutes hbid hlook
    hpages (by omega) hminutes (by omega)]
  simp only [logApply, hcp]
  rw [booksById_map _ _ (fun b => by
      by_cases hc : b.id == book.id
      · rw [if_pos hc]
      · rw [if_neg hc])]
  rw [hlook]
  simp only [Option.map_some', Option.some.injEq]
  have hbeq : (book.id == book.id) = true := by simp
  rw [if_pos hbeq]
  dsimp only
  rw [clamp_eq_hi _ _ _ (by omega), if_pos (by omega)]

/-- C7 witness: the spec's own example: 100-page book at page 90, log 50
pages; result is `currentPage = 100`, `status = completed`. -/
theorem C7_witness :
    (booksById (handleSessionSubmit "s1"
        { books := [⟨"b1", "T", "A", 100, 90, .inProgress, 0, none, none⟩],
          sessions := [], preferences := DEFAULT_PREFERENCES }
        { bookId := "b1", date := 0, pagesRead := some 50,
          minutes := some 10 }).1.books "b1").map
        (fun b => (b.currentPage, b.status))
      = some (100, BookStatus.completed) :=
  C7_overflow_completes "s1"
    { books := [⟨"b1", "T", "A", 100, 90, .inProgress, 0, none, none⟩],
      sessions := [], preferences := DEFAULT_PREFERENCES }
    { bookId := "b1", date := 0, pagesRead := some 50, minutes := some 10 }
    ⟨"b1", "T", "A", 100, 90, .inProgress, 0, none, none⟩ 50 10
    (by decide) (by decide) rfl (by decide) rfl (by decide)
    (by decide) (by decide) (by decide)

/-- C8 (confirmed): loading a missing or unparseable blob yields the full
default state; a parsed blob without the `preferences` key (or with an empty
preferences object) keeps its books and sessions and receives the default
preferences (`weeklyMinutesGoal = 420`, `dailyPagesGoal = 30`,
`showCompleted = true`), all without failing. -/
theorem C8_load_defaults :
    loadState none = DEFAULT_STATE ∧
    (∀ (books : List Book) (sessions : List ReadingSession),
      loadState (some
          { books := some books, sessions := some sessions, preferences := none })
        = { books := books, sessions := sessions,
            preferences := DEFAULT_PREFERENCES }) ∧
    (∀ (books : List Book) (sessions : List ReadingSession),
      loadState (some
          { books := some books, sessions := some sessions, preferences := some {} })
        = { books := books, sessions := sessions,
            preferences := DEFAULT_PREFERENCES }) :=
  ⟨rfl, fun _ _ => rfl, fun _ _ => rfl⟩

/-- C9 (confirmed): AddBook fails on a blank (after trimming) title or
author or a non-positive/unparseable `totalPages`; LogSession fails on a
missing book, or non-positive/unparseable `pagesRead` or `minutes`.  In
every failing case the state is returned unchanged and an error message is
surfaced: no operation partially applies. -/
theorem C9_validation_rejects_without_mutation :
    (∀ (newId : String) (today : Int) (st : TrackerState)
        (form : BookFormState),
      (trimString form.title = "" ∨ trimString form.author = "" ∨
          form.totalPages = none ∨ ∃ n, form.totalPages = some n ∧ n ≤ 0) →
      (handleBookSubmit newId today st form).1 = st ∧
        ((handleBookSubmit newId today st form).2).isSome = true) ∧
    (∀ (newId : String) (st : TrackerState) (form : SessionFormState),
      (form.bookId = "" ∨ booksById st.books form.bookId = none ∨
          form.pagesRead = none ∨ (∃ n, form.pagesRead = some n ∧ n ≤ 0) ∨
          form.minutes = none ∨ ∃ n, form.minutes = some n ∧ n ≤ 0) →
      (handleSessionSubmit newId st form).1 = st ∧
        ((handleSessionSubmit newId st form).2).isSome = true) := by
  constructor
  · intro newId today st form hcond
    unfold handleBookSubmit
    by_cases h1 : trimString form.title = "" ∨ trimString form.author = ""
    · rw [if_pos h1]
      exact ⟨rfl, rfl⟩
    · rw [if_neg h1]
      rcases hcond with c | c | c | ⟨n, hn, hn0⟩
      · exact absurd (Or.inl c) h1
      · exact absurd (Or.inr c) h1
      · rw [c]
        exact ⟨rfl, rfl⟩
      · simp only [hn]
        rw [if_pos hn0]
        exact ⟨rfl, rfl⟩
  · intro newId st form hcond
    unfold handleSessionSubmit
    by_cases h1 : form.bookId = ""
    · rw [if_pos h1]
      exact ⟨rfl, rfl⟩
    · rw [if_neg h1]
      cases hlook : booksById st.books form.bookId with
      | none =>
        exact ⟨rfl, rfl⟩
      | some book =>
        rcases hcond with c | c | c | ⟨n, hn, hn0⟩ | c | ⟨n, hn, hn0⟩
        · exact absurd c h1
        · rw [hlook] at c
          cases c
        · rw [c]
          exact ⟨rfl, rfl⟩
        · simp only [hn]
          rw [if_pos hn0]
          exact ⟨rfl, rfl⟩
        · cases hpr : form.pagesRead with
          | none => exact ⟨rfl, rfl⟩
          | some p =>
            by_cases hp0 : p ≤ 0
            · simp only [hpr]
              rw [if_pos hp0]
              exact ⟨rfl, rfl⟩
            · simp only [hpr]
              rw [if_neg hp0, c]
              exact ⟨rfl, rfl⟩
        · cases hpr : form.pagesRead with
          | none => exact ⟨rfl, rfl⟩
          | some p =>
            by_cases hp0 : p ≤ 0
            · simp only [hpr]
              rw [if_pos hp0]
              exact ⟨rfl, rfl⟩
            · simp only [hpr]
              rw [if_neg hp0]
              simp only [hn]
              rw [if_pos hn0]
              exact ⟨rfl, rfl⟩

/-- C9 witness: a book form with `totalPages = 0` and a session form with a
blank book id both leave the default state untouched and surface errors. -/
theorem C9_witness :
    ((handleBookSubmit "b1" 0 DEFAULT_STATE
        { title := "T", author := "A", totalPages := some 0 }).1
        = DEFAULT_STATE ∧
      ((handleBookSubmit "b1" 0 DEFAULT_STATE
        { title := "T", author := "A", totalPages := some 0 }).2).isSome
        = true) ∧
    ((handleSessionSubmit "s1" DEFAULT_STATE
        { bookId := "", date := 0, pagesRead := some 5,
          minutes := some 5 }).1 = DEFAULT_STATE ∧
      ((handleSessionSubmit "s1" DEFAULT_STATE
        { bookId := "", date := 0, pagesRead := some 5,
          minutes := some 5 }).2).isSome = true) :=
  ⟨C9_validation_rejects_without_mutation.1 "b1" 0 DEFAULT_STATE
      { title := "T", author := "A", totalPages := some 0 }
      (Or.inr (Or.inr (Or.inr ⟨0, rfl, le_refl 0⟩))),
    C9_validation_rejects_without_mutation.2 "s1" DEFAULT_STATE
      { bookId := "", date := 0, pagesRead := some 5, minutes := some 5 }
      (Or.inl rfl)⟩

/-- C10 (confirmed): removing an existing session always leaves the owning
book `not-started` or `in-progress`, never `completed` — the branch in
`removeSession` only ever assigns those two statuses, so even a session that
was logged on an already-full book demotes the book out of `completed`. -/
theorem C10_remove_demotes (st : TrackerState) (sid : String)
    (session : ReadingSession)
    (hfind : st.sessions.find? (fun item => item.id == sid) = some session) :
    ∀ b ∈ (removeSession st sid).books, b.id = session.bookId →
      b.status ≠ BookStatus.completed := by
  intro b hb hbid
  unfold removeSession at hb
  rw [hfind] at hb
  obtain ⟨item, hitem, rfl⟩ := List.mem_map.mp hb
  by_cases hid : item.id == session.bookId
  · rw [if_pos hid]
    dsimp only
    by_cases hz : item.currentPage - session.pagesRead ≤ 0
    · rw [if_pos hz]
      decide
    · rw [if_neg hz]
      decide
  · rw [if_neg hid] at hbid
    exact absurd hbid (by simpa using hid)

/-- C10 witness: removing the only session of a completed 10-page book
leaves it `in-progress` (6 of 10 pages), not `completed`. -/
theorem C10_witness :
    BookStatus.inProgress ≠ BookStatus.completed :=
  C10_remove_demotes
    { books := [⟨"b1", "T", "A", 10, 10, .completed, 0, none, none⟩],
      sessions := [⟨"s1", "b1", 0, 4, 5, none⟩],
      preferences := DEFAULT_PREFERENCES }
    "s1" ⟨"s1", "b1", 0, 4, 5, none⟩ (by decide)
    ⟨"b1", "T", "A", 10, 6, .inProgress, 0, none, none⟩ (by decide) rfl

end ReadingTracker
